import Mathlib

/-!
Verification of the `nyu-curp-2021` tutorial repository.

Embedded code:
- `factorial` from `src/day2/exercise3/src/mymath/_factorial.py`: an
  iterative accumulator loop `result = 1; for i in range(1, n + 1):
  result *= i; return result`, modelled as a left fold over the list of
  integers produced by Python's `range(1, n + 1)`.
- `get_user_name` and the printing branch of `main` from
  `src/day2/exercise1/hello_curp.py`, modelled over an explicit
  environment mapping variable names to optional string values.
-/

namespace Curp

/-- Python `range(a, b)`: the integers `a, a + 1, …, b - 1`, empty when
`b ≤ a`. -/
def pyRange (a b : Int) : List Int :=
  (List.range (b - a).toNat).map (fun i : ℕ => a + (i : Int))

/-- `factorial` from `mymath/_factorial.py`:
`result = 1`, then `for i in range(1, n + 1): result *= i`, then
`return result`. -/
def factorial (n : Int) : Int :=
  (pyRange 1 (n + 1)).foldl (fun result i => result * i) 1

/-- A call to `factorial` seen with an explicit ambient state `s : σ`:
the function reads no state and writes none, so the call returns the
pure value and leaves the state untouched. -/
def factorialCall (σ : Type) (s : σ) (n : Int) : Int × σ :=
  (factorial n, s)

/-- An environment of process variables, as queried by `os.getenv`. -/
def Env : Type := String → Option String

/-- `get_user_name` from `hello_curp.py`:
`name = os.getenv('USER')`; `if name is None: name = os.getenv('USERNAME')`;
`return name`. -/
def get_user_name (env : Env) : Option String :=
  match env "USER" with
  | some name => some name
  | none => env "USERNAME"

/-- Python's `str` applied to an optional string, as an f-string does:
`None` renders as the literal text `None`. -/
def pyStr : Option String → String
  | none => "None"
  | some s => s

/-- The line printed by `main` in `hello_curp.py`, as a function of the
environment and the parsed `--user` argument (`none` when absent). -/
def main_output (env : Env) (user : Option String) : String :=
  match user with
  | none => "Hi! Are you " ++ pyStr (get_user_name env) ++ "?"
  | some u => "Hi, " ++ u ++ "!"

lemma foldl_mul_eq (l : List Int) (a : Int) :
    l.foldl (fun result i => result * i) a = a * l.prod := by
  induction l generalizing a with
  | nil => simp
  | cons x xs ih => simp [List.foldl_cons, ih, List.prod_cons, mul_assoc]

lemma range_map_one_add_prod (k : ℕ) :
    ((List.range k).map (fun i : ℕ => (1 : Int) + (i : Int))).prod = (k.factorial : Int) := by
  induction k with
  | zero => simp
  | succ k ih =>
    rw [List.range_succ, List.map_append, List.prod_append, ih,
      List.map_singleton, List.prod_singleton]
    push_cast [Nat.factorial_succ]
    ring

/-- The loop of `factorial` computes the mathematical factorial of
`n.toNat` (so in particular `1` whenever `n < 0`). -/
lemma factorial_eq (n : Int) : factorial n = (n.toNat.factorial : Int) := by
  unfold factorial pyRange
  rw [foldl_mul_eq, one_mul, show n + 1 - 1 = n by ring]
  exact range_map_one_add_prod n.toNat

lemma prod_Icc_one_int (k : ℕ) :
    (∏ i ∈ Finset.Icc (1 : Int) (k : Int), i) = (k.factorial : Int) := by
  induction k with
  | zero =>
    rw [Finset.Icc_eq_empty (by norm_num)]
    simp
  | succ k ih =>
    have hins : Finset.Icc (1 : Int) ((k : Int) + 1)
        = insert ((k : Int) + 1) (Finset.Icc (1 : Int) (k : Int)) := by
      ext x
      simp only [Finset.mem_Icc, Finset.mem_insert]
      omega
    have hnot : ((k : Int) + 1) ∉ Finset.Icc (1 : Int) (k : Int) := by
      simp [Finset.mem_Icc]
    push_cast
    rw [hins, Finset.prod_insert hnot, ih]
    push_cast [Nat.factorial_succ]
    ring

/-- C1: for every integer `n ≥ 0`, `factorial n` equals the product of
all integers from `1` to `n` inclusive (the empty product for `n = 0`),
i.e. the mathematical factorial of `n`. -/
theorem factorial_correct (n : Int) (h : 0 ≤ n) :
    factorial n = (∏ i ∈ Finset.Icc (1 : Int) n, i)
      ∧ factorial n = (n.toNat.factorial : Int) := by
  refine ⟨?_, factorial_eq n⟩
  rw [factorial_eq n]
  have hn : ((n.toNat : ℕ) : Int) = n := Int.toNat_of_nonneg h
  conv_rhs => rw [← hn]
  exact (prod_Icc_one_int n.toNat).symm

/-- Witness for C1 at `n = 5`. -/
theorem factorial_correct_witness :
    (0 : Int) ≤ 5
      ∧ (factorial 5 = (∏ i ∈ Finset.Icc (1 : Int) 5, i)
          ∧ factorial 5 = ((5 : Int).toNat.factorial : Int)) :=
  ⟨by decide, factorial_correct 5 (by decide)⟩

/-- C2: for every integer `n ≥ 1`, `factorial n = n * factorial (n - 1)`. -/
theorem factorial_recurrence (n : Int) (h : 1 ≤ n) :
    factorial n = n * factorial (n - 1) := by
  rw [factorial_eq, factorial_eq]
  have hk : n.toNat = (n - 1).toNat + 1 := by omega
  rw [hk, Nat.factorial_succ]
  push_cast
  have hn : ((n - 1).toNat : Int) = n - 1 := Int.toNat_of_nonneg (by omega)
  rw [hn]
  ring

/-- Witness for C2 at `n = 5`. -/
theorem factorial_recurrence_witness :
    (1 : Int) ≤ 5 ∧ factorial 5 = 5 * factorial 4 :=
  ⟨by decide, factorial_recurrence 5 (by decide)⟩

/-- C3: the concrete values `factorial 0 = 1`, `factorial 1 = 1`,
`factorial 5 = 120` and `factorial 10 = 3628800`. -/
theorem factorial_values :
    factorial 0 = 1 ∧ factorial 1 = 1
      ∧ factorial 5 = 120 ∧ factorial 10 = 3628800 := by
  refine ⟨?_, ?_, ?_, ?_⟩ <;> decide

/-- C4: for every negative integer `n`, the loop of `factorial` iterates
zero times (the range is empty) and the function returns `1`. -/
theorem factorial_neg (n : Int) (h : n < 0) :
    pyRange 1 (n + 1) = [] ∧ factorial n = 1 := by
  constructor
  · unfold pyRange
    rw [show n + 1 - 1 = n by ring, Int.toNat_of_nonpos (le_of_lt h)]
    simp
  · rw [factorial_eq, Int.toNat_of_nonpos (le_of_lt h)]
    simp

/-- Witness for C4 at `n = -3`. -/
theorem factorial_neg_witness :
    (-3 : Int) < 0 ∧ (pyRange 1 (-3 + 1) = [] ∧ factorial (-3) = 1) :=
  ⟨by decide, factorial_neg (-3) (by decide)⟩

/-- C5: the computation is exact arbitrary-precision arithmetic: at
`n = 25` the result is the exact value of `25!`, which exceeds `2 ^ 64`,
with no truncation or modular reduction. -/
theorem factorial_arbitrary_precision :
    factorial 25 = 15511210043330985984000000
      ∧ (2 : Int) ^ 64 < factorial 25 := by
  constructor <;> decide

/-- C6: `factorial` is total on the integers: every input, negative
values included, yields an integer result (namely the factorial of
`n.toNat`) rather than a failure. -/
theorem factorial_total :
    ∀ n : Int, ∃ r : Int, factorial n = r ∧ r = (n.toNat.factorial : Int) :=
  fun n => ⟨factorial n, rfl, factorial_eq n⟩

/-- C7: `factorial` is deterministic and touches no hidden state: a call
under any ambient state returns the pure value, leaves the state
unchanged, and a repeated call after it returns the same value. -/
theorem factorial_deterministic (σ : Type) (s : σ) (n : Int) :
    (factorialCall σ s n).1 = factorial n
      ∧ (factorialCall σ s n).2 = s
      ∧ (factorialCall σ (factorialCall σ s n).2 n).1
          = (factorialCall σ s n).1 :=
  ⟨rfl, rfl, rfl⟩

/-- C8: with `--user` absent, `get_user_name` returns the value of
`USER` when set and otherwise the value of `USERNAME`, and the greeting
printed to standard output is built from that resolved name. -/
theorem cli_user_fallback (env : Env) :
    get_user_name env = Option.or (env "USER") (env "USERNAME")
      ∧ main_output env none
          = "Hi! Are you "
              ++ pyStr (Option.or (env "USER") (env "USERNAME")) ++ "?" := by
  have hget : get_user_name env = Option.or (env "USER") (env "USERNAME") := by
    unfold get_user_name
    cases env "USER" <;> rfl
  exact ⟨hget, by rw [show main_output env none
    = "Hi! Are you " ++ pyStr (get_user_name env) ++ "?" from rfl, hget]⟩

/-- C9: for every integer `n`, negative values included,
`1 ≤ factorial n`; the result is never zero or negative. -/
theorem factorial_pos (n : Int) : 1 ≤ factorial n := by
  rw [factorial_eq]
  exact_mod_cast Nat.one_le_iff_ne_zero.mpr (Nat.factorial_ne_zero n.toNat)

/-- C10: when `--user` is absent and neither `USER` nor `USERNAME` is
set, `get_user_name` returns `none` and the printed line is the literal
text `Hi! Are you None?`. -/
theorem cli_no_env (env : Env) (h1 : env "USER" = none)
    (h2 : env "USERNAME" = none) :
    get_user_name env = none ∧ main_output env none = "Hi! Are you None?" := by
  have hget : get_user_name env = none := by
    unfold get_user_name
    rw [h1, h2]
  refine ⟨hget, ?_⟩
  show "Hi! Are you " ++ pyStr (get_user_name env) ++ "?" = _
  rw [hget]
  rfl

/-- Witness for C10 at the empty environment. -/
theorem cli_no_env_witness :
    get_user_name (fun _ => none) = none
      ∧ main_output (fun _ => none) none = "Hi! Are you None?" :=
  cli_no_env (fun _ => none) rfl rfl

end Curp
